import Mathlib

/-
Formal model of the SharePoint folder-synchronization module of this
repository (backend/open_webui/routers/sharepoint.py together with the
record store in backend/open_webui/models/sharepoint_sync.py).

The Python source is shallowly embedded: pure helpers become Lean
functions; the stateful background orchestrator becomes an explicit
state-passing function over a record type mirroring the persisted
SyncJob row; the remote HTTP world (responses, timeouts, raised
exceptions, the concurrent cancellation write) is supplied as explicit
oracle parameters, one decision per interaction point, exactly where the
source performs that interaction.
-/

set_option maxHeartbeats 1000000
set_option maxRecDepth 8192

namespace SharepointSync

/-- A parsed JSON value, as produced by Python's response.json().
Objects are modelled as association lists (parsed Python dicts, keys
distinct). -/
inductive Json where
  | null
  | bool (b : Bool)
  | num (n : Int)
  | str (s : String)
  | arr (xs : List Json)
  | obj (kvs : List (String × Json))

/-- Result of evaluating a small Python expression that may raise an
AttributeError (calling .get on a non-dict or .lower on a non-string). -/
inductive PyEval (α : Type) where
  | ok (a : α)
  | attrError
deriving DecidableEq, Repr

/-- Key lookup in a parsed JSON object (Python dict indexing; parsed
dicts have distinct keys, so first match suffices). -/
def jlookup : List (String × Json) → String → Option Json
  | [], _ => none
  | (k', v) :: rest, k => if k' = k then some v else jlookup rest k

/-- Python d.get(k, default): returns the value bound to k, or the
default when the key is absent; raises AttributeError when the receiver
is not a dict. -/
def pyGetD (j : Json) (k : String) (d : Json) : PyEval Json :=
  match j with
  | .obj kvs => .ok ((jlookup kvs k).getD d)
  | _ => .attrError

/-- Python equality test between a value and a string literal: false
(without raising) on non-string values. -/
def pyEqStr (j : Json) (s : String) : Bool :=
  match j with
  | .str t => t == s
  | _ => false

/-- Python s.lower(): lower-cases a string, raises AttributeError on a
non-string receiver. -/
def pyLower : Json → PyEval String
  | .str s => .ok s.toLower
  | _ => .attrError

/-- Python substring test (needle in hay) for strings. -/
def pyInStr (needle hay : String) : Bool :=
  2 ≤ (hay.splitOn needle).length

/-- Message of the TokenExpiredError raised when the 401 body matches the
expired/unauthenticated test (sharepoint.py line 261). -/
def expiredMsg : String :=
  "Access token has expired. Please click Sync again to re-authenticate."

/-- Message of the TokenExpiredError raised by the fall-through at
sharepoint.py line 264. -/
def authFailedMsg : String :=
  "Authentication failed. Please click Sync again to re-authenticate."

/-- How the 401 branch of retry_request (sharepoint.py lines 255-264)
terminates. -/
inductive Outcome401 where
  | expired
  | generic
  | attrEscape
deriving DecidableEq, Repr

/-- The 401 branch of retry_request (sharepoint.py lines 255-264),
evaluated in Python order.  body = none models response.json() raising
ValueError (caught by the inner except, falling through to the generic
raise).  error_code and inner_code are computed eagerly (lines 258-259),
then the condition of line 260 is evaluated left to right with Python
short-circuiting; an AttributeError anywhere escapes the inner
try/except (which only catches ValueError/KeyError) and is handled by
the enclosing generic except, i.e. retried. -/
def handle401 (body : Option Json) : Outcome401 :=
  match body with
  | none => .generic
  | some j =>
    match pyGetD j "error" (.obj []) with
    | .attrError => .attrEscape
    | .ok errVal =>
      match pyGetD errVal "code" (.str "") with
      | .attrError => .attrEscape
      | .ok codeVal =>
        match pyGetD errVal "innerError" (.obj []) with
        | .attrError => .attrEscape
        | .ok innerVal =>
          match pyGetD innerVal "code" (.str "") with
          | .attrError => .attrEscape
          | .ok innerCodeVal =>
            match pyLower codeVal with
            | .attrError => .attrEscape
            | .ok codeLower =>
              if pyInStr "expired" codeLower then .expired
              else
                match pyLower innerCodeVal with
                | .attrError => .attrEscape
                | .ok innerLower =>
                  if pyInStr "expired" innerLower then .expired
                  else if pyEqStr codeVal "unauthenticated" then .expired
                  else .generic

/-- An HTTP response as inspected by retry_request: status code, the
content-type header (headers.get with default ""), and the parsed JSON
body (none models a body that response.json() fails to parse). -/
structure HttpResponse where
  status : Nat
  contentType : String
  body : Option Json

/-- What one call to client.get/client.post does, as seen from
retry_request: a response, an httpx.TimeoutException, or some other
raised exception. -/
inductive AttemptOutcome where
  | resp (r : HttpResponse)
  | timeout
  | exc (msg : String)

/-- The error retry_request finally raises. -/
inductive ReqError where
  | tokenExpired (msg : String)
  | timeoutExhausted
  | attrExhausted
  | excExhausted (msg : String)
  | htmlExhausted
  | noAttempts
deriving DecidableEq, Repr

/-- Observable outcome of one retry_request call: the returned response
or raised error, the asyncio.sleep delays performed (in seconds, in
order), and how many HTTP attempts were issued. -/
structure ReqResult where
  result : Except ReqError HttpResponse
  delays : List Nat
  attemptsMade : Nat

/-- Classification of one loop iteration of retry_request
(sharepoint.py lines 248-292): immediate failure (the 401 short-circuit,
never retried), a retryable failure (timeout, other exception, HTML-200
error page, or an AttributeError escaping the 401 body inspection), or a
returned response.  For a retryable failure the payload is the error
raised if this was the last attempt. -/
inductive StepClass where
  | fail (e : ReqError)
  | retryable (e : ReqError)
  | success (r : HttpResponse)

/-- One iteration of retry_request's for-loop applied to the attempt's
outcome (sharepoint.py lines 248-292). -/
def classifyAttempt (a : AttemptOutcome) : StepClass :=
  match a with
  | .timeout => .retryable .timeoutExhausted
  | .exc m => .retryable (.excExhausted m)
  | .resp r =>
    if r.status = 401 then
      match handle401 r.body with
      | .expired => .fail (.tokenExpired expiredMsg)
      | .generic => .fail (.tokenExpired authFailedMsg)
      | .attrEscape => .retryable .attrExhausted
    else if r.status = 200 ∧ pyInStr "text/html" r.contentType = true then
      .retryable .htmlExhausted
    else .success r

/-- The retry loop of retry_request.  attempt is the current 0-based
attempt index, fuel the number of iterations left (so the Python guard
attempt < max_retries - 1 is fuel > 1).  On a retryable failure with
attempts left it sleeps 2 ^ attempt seconds and continues; on the last
attempt it raises.  fuel = 0 models the degenerate max_retries = 0 call
(line 293, raise last_error). -/
def retryRequestGo (attempts : Nat → AttemptOutcome) : Nat → Nat → ReqResult
  | _, 0 => ⟨.error .noAttempts, [], 0⟩
  | attempt, fuel + 1 =>
    match classifyAttempt (attempts attempt) with
    | .fail e => ⟨.error e, [], 1⟩
    | .success r => ⟨.ok r, [], 1⟩
    | .retryable e =>
      if fuel = 0 then ⟨.error e, [], 1⟩
      else
        let r := retryRequestGo attempts (attempt + 1) fuel
        ⟨r.result, 2 ^ attempt :: r.delays, r.attemptsMade + 1⟩

/-- retry_request (sharepoint.py lines 244-293) applied to a stream of
per-attempt outcomes. -/
def retryRequest (attempts : Nat → AttemptOutcome) (maxRetries : Nat) : ReqResult :=
  retryRequestGo attempts 0 maxRetries

/-- An attempt outcome that retry_request retries. -/
def IsRetryable (a : AttemptOutcome) : Prop :=
  ∃ e, classifyAttempt a = .retryable e

/-- A canonical Graph-style 401 error body: error.code = ec and,
when ic is present, error.innerError.code = ic. -/
def mkErrorBody (ec : String) (ic : Option String) : Json :=
  .obj [("error", .obj ([("code", .str ec)] ++
    (match ic with
     | some s => [("innerError", .obj [("code", .str s)])]
     | none => [])))]

/-- Modelled from the spec's words: the token-expiry test — the error
code or inner-error code contains "expired" (case-insensitive) or the
error code equals "unauthenticated". -/
def specExpiredCond (ec ic : String) : Bool :=
  pyInStr "expired" ec.toLower || pyInStr "expired" ic.toLower || (ec == "unauthenticated")

theorem retryRequestGo_retry_step (attempts : Nat → AttemptOutcome)
    (attempt m : Nat) (e : ReqError)
    (he : classifyAttempt (attempts attempt) = .retryable e) :
    retryRequestGo attempts attempt (m + 2) =
      ⟨(retryRequestGo attempts (attempt + 1) (m + 1)).result,
       2 ^ attempt :: (retryRequestGo attempts (attempt + 1) (m + 1)).delays,
       (retryRequestGo attempts (attempt + 1) (m + 1)).attemptsMade + 1⟩ := by
  conv_lhs => rw [retryRequestGo]
  rw [he]
  simp

theorem retryRequestGo_allRetryable (attempts : Nat → AttemptOutcome)
    (h : ∀ i, IsRetryable (attempts i)) :
    ∀ fuel attempt, 1 ≤ fuel →
      (retryRequestGo attempts attempt fuel).delays
          = (List.range (fuel - 1)).map (fun k => 2 ^ (attempt + k)) ∧
        (retryRequestGo attempts attempt fuel).attemptsMade = fuel := by
  intro fuel
  induction fuel with
  | zero => intro attempt hf; omega
  | succ n ih =>
    intro attempt _
    obtain ⟨e, he⟩ := h attempt
    cases n with
    | zero => simp [retryRequestGo, he]
    | succ m =>
      have ihm := ih (attempt + 1) (by omega)
      rw [show m + 1 + 1 = m + 2 from rfl, retryRequestGo_retry_step attempts attempt m e he]
      refine ⟨?_, by rw [ihm.2]⟩
      show 2 ^ attempt :: (retryRequestGo attempts (attempt + 1) (m + 1)).delays = _
      rw [ihm.1, show m + 1 - 1 = m from rfl, show m + 2 - 1 = m + 1 from rfl,
        List.range_succ_eq_map, List.map_cons, List.map_map]
      refine congrArg₂ List.cons (by rw [Nat.add_zero]) (List.map_congr_left ?_)
      intro k _
      simp only [Function.comp_apply]
      congr 1
      omega

theorem handle401_mkErrorBody_none (ec : String) :
    handle401 (some (mkErrorBody ec none)) =
      (if specExpiredCond ec "" then .expired else .generic) := by
  show (if pyInStr "expired" ec.toLower = true then Outcome401.expired
        else if pyInStr "expired" ("" : String).toLower = true then Outcome401.expired
        else if pyEqStr (.str ec) "unauthenticated" = true then Outcome401.expired
        else Outcome401.generic) = _
  simp only [specExpiredCond, pyEqStr, Bool.or_eq_true]
  by_cases h1 : pyInStr "expired" ec.toLower = true <;>
    by_cases h2 : pyInStr "expired" ("" : String).toLower = true <;>
      by_cases h3 : (ec == "unauthenticated") = true <;>
        simp [h1, h2, h3]

theorem handle401_mkErrorBody_some (ec s : String) :
    handle401 (some (mkErrorBody ec (some s))) =
      (if specExpiredCond ec s then .expired else .generic) := by
  show (if pyInStr "expired" ec.toLower = true then Outcome401.expired
        else if pyInStr "expired" s.toLower = true then Outcome401.expired
        else if pyEqStr (.str ec) "unauthenticated" = true then Outcome401.expired
        else Outcome401.generic) = _
  simp only [specExpiredCond, pyEqStr, Bool.or_eq_true]
  by_cases h1 : pyInStr "expired" ec.toLower = true <;>
    by_cases h2 : pyInStr "expired" s.toLower = true <;>
      by_cases h3 : (ec == "unauthenticated") = true <;>
        simp [h1, h2, h3]

/-- C3 counterexample: with max_retries = 3 and every attempt hitting a
retryable failure (here: timeouts throughout), the observed backoff
delays are 1s and 2s only — the claimed third delay of 4s never occurs,
because the final attempt re-raises instead of sleeping
(sharepoint.py lines 283-286). -/
theorem backoff_delays_counterexample :
    (retryRequest (fun _ => .timeout) 3).delays = [1, 2] ∧
      (retryRequest (fun _ => .timeout) 3).delays ≠ [1, 2, 4] := by
  constructor
  · rfl
  · intro hcontra
    have h12 : ([1, 2] : List Nat) = [1, 2, 4] := by
      rw [show (retryRequest (fun _ => .timeout) 3).delays = [1, 2] from rfl] at hcontra
      exact hcontra
    simp at h12

/-- C3 (amended): for every run of retry_request with max_retries = 3
that keeps hitting retryable failures, the delays observed are exactly
1s then 2s — 2 ^ attempt seconds after each failed attempt index
attempt with attempt < max_retries - 1, no delay after the final
attempt, and no jitter — and exactly 3 attempts are issued. -/
theorem backoff_delays_schedule (attempts : Nat → AttemptOutcome)
    (h : ∀ i, IsRetryable (attempts i)) :
    (retryRequest attempts 3).delays = [1, 2] ∧
      (retryRequest attempts 3).attemptsMade = 3 := by
  have hgo := retryRequestGo_allRetryable attempts h 3 0 (by omega)
  rw [retryRequest, hgo.1, hgo.2]
  exact ⟨by decide, rfl⟩

/-- Witness for backoff_delays_schedule: an all-timeout attempt stream. -/
theorem backoff_delays_schedule_witness :
    (retryRequest (fun _ => AttemptOutcome.timeout) 3).delays = [1, 2] ∧
      (retryRequest (fun _ => AttemptOutcome.timeout) 3).attemptsMade = 3 :=
  backoff_delays_schedule (fun _ => .timeout)
    (fun _ => ⟨.timeoutExhausted, rfl⟩)

/-- A 401 response whose JSON body binds the key error to a string: the
body inspection at sharepoint.py line 258 then raises AttributeError
(a str has no .get), which the inner except (ValueError, KeyError) does
not catch; the outer generic except treats it as transient and retries. -/
def badAuthResp : HttpResponse :=
  ⟨401, "application/json", some (.obj [("error", .str "denied")])⟩

/-- C2 counterexample: a 401 response is not always failed with zero
retries — with the body of badAuthResp, retry_request issues all 3
attempts and sleeps twice (1s, 2s) before exhausting. -/
theorem auth401_counterexample :
    (retryRequest (fun _ => .resp badAuthResp) 3).attemptsMade = 3 ∧
      (retryRequest (fun _ => .resp badAuthResp) 3).delays = [1, 2] :=
  ⟨rfl, rfl⟩

/-- C2 (amended): for a 401 response whose body inspection completes —
body = none models a body that is not JSON (response.json() raises
ValueError, caught by the inner except, falling through to the generic
raise), body = some (ec, ic) a canonical error body with error.code a
string and optionally error.innerError.code a string — retry_request
fails immediately: zero delays, a single attempt, and in every such
case a TokenExpiredError is raised.  For a canonical body the specific
expired-token message is chosen exactly when the error code or
inner-error code contains "expired" (case-insensitive) or the error
code equals "unauthenticated"; otherwise — including the not-JSON
body — the generic authentication-failed message of the same
TokenExpiredError class is raised (there is no distinct AuthFailed
kind). -/
theorem auth401_immediate (attempts : Nat → AttemptOutcome) (maxRetries : Nat)
    (r : HttpResponse) (body : Option (String × Option String))
    (h0 : attempts 0 = .resp r) (hs : r.status = 401)
    (hb : r.body = body.map (fun p => mkErrorBody p.1 p.2)) (hm : 1 ≤ maxRetries) :
    (retryRequest attempts maxRetries).result =
        .error (.tokenExpired (match body with
          | none => authFailedMsg
          | some (ec, ic) =>
            if specExpiredCond ec (ic.getD "") then expiredMsg else authFailedMsg)) ∧
      (retryRequest attempts maxRetries).delays = [] ∧
      (retryRequest attempts maxRetries).attemptsMade = 1 := by
  obtain ⟨fuel, rfl⟩ : ∃ f, maxRetries = f + 1 := ⟨maxRetries - 1, by omega⟩
  rcases body with _ | ⟨ec, ic⟩
  · have hcl : classifyAttempt (attempts 0) = .fail (.tokenExpired authFailedMsg) := by
      have hbody : handle401 r.body = Outcome401.generic := by rw [hb]; rfl
      rw [h0]
      simp [classifyAttempt, hs, hbody]
    simp [retryRequest, retryRequestGo, hcl]
  · have hbody : handle401 r.body =
        (if specExpiredCond ec (ic.getD "") then .expired else .generic) := by
      rcases ic with _ | s
      · rw [hb]; exact handle401_mkErrorBody_none ec
      · rw [hb]; exact handle401_mkErrorBody_some ec s
    have hcl : classifyAttempt (attempts 0) =
        .fail (.tokenExpired (if specExpiredCond ec (ic.getD "") then expiredMsg
          else authFailedMsg)) := by
      rw [h0]
      by_cases hc : specExpiredCond ec (ic.getD "") = true <;>
        simp [classifyAttempt, hs, hbody, hc]
    simp [retryRequest, retryRequestGo, hcl]

/-- The spec's own 401 example: error.code InvalidAuthenticationToken
with innerError.code TokenExpired. -/
def graphExpiredResp : HttpResponse :=
  ⟨401, "application/json",
    some (mkErrorBody "InvalidAuthenticationToken" (some "TokenExpired"))⟩

/-- A 401 response whose body is not JSON at all (response.json()
raises ValueError). -/
def rawAuthResp : HttpResponse := ⟨401, "text/plain", none⟩

/-- Witness for auth401_immediate, at the spec's example body and at a
non-JSON body. -/
theorem auth401_immediate_witness :
    ((retryRequest (fun _ => AttemptOutcome.resp graphExpiredResp) 3).delays = [] ∧
      (retryRequest (fun _ => AttemptOutcome.resp graphExpiredResp) 3).attemptsMade = 1) ∧
      (retryRequest (fun _ => AttemptOutcome.resp rawAuthResp) 3).delays = [] ∧
      (retryRequest (fun _ => AttemptOutcome.resp rawAuthResp) 3).attemptsMade = 1 := by
  have h1 := auth401_immediate (fun _ => .resp graphExpiredResp) 3 graphExpiredResp
    (some ("InvalidAuthenticationToken", some "TokenExpired")) rfl rfl rfl (by omega)
  have h2 := auth401_immediate (fun _ => .resp rawAuthResp) 3 rawAuthResp none
    rfl rfl rfl (by omega)
  exact ⟨⟨h1.2.1, h1.2.2⟩, h2.2.1, h2.2.2⟩

/-- A raw child item as returned by the Graph children-listing endpoint,
restricted to the keys list_folder_contents reads (sharepoint.py lines
359-376), plus — when the item is a folder — its own children listing,
split into the pages followed through the odata nextLink.  folderFacet
is the truthiness of item.get("folder"); fileFacet is the truthiness of
item.get("file") together with the facet's optional mimeType field. -/
inductive RawItem where
  | mk (id : String) (name : String) (size : Option Nat)
      (lastModified : Option String) (folderFacet : Bool)
      (fileFacet : Option (Option String)) (parentPath : Option String)
      (childPages : List (List RawItem))

/-- The descriptor dict list_folder_contents appends for a file child
(sharepoint.py lines 367-376). -/
structure FileDesc where
  id : String
  name : String
  size : Nat
  lastModifiedDateTime : Option String
  mimeType : String
  parentPath : String
deriving DecidableEq, Repr

mutual

/-- list_folder_contents (sharepoint.py lines 336-381) applied to the
pages of one folder's children listing, in page order. -/
def listFolderContents : List (List RawItem) → List FileDesc
  | [] => []
  | page :: rest => listItems page ++ listFolderContents rest

/-- The for-loop of list_folder_contents over the items of one page. -/
def listItems : List RawItem → List FileDesc
  | [] => []
  | item :: rest => listItem item ++ listItems rest

/-- Handling of a single child item (sharepoint.py lines 359-376): a
folder-faceted child is recursed into and its files spliced in at this
point; otherwise a file-faceted child emits one descriptor; a child with
neither facet contributes nothing. -/
def listItem : RawItem → List FileDesc
  | .mk id name size lm ff filef pp pages =>
    if ff then listFolderContents pages
    else
      match filef with
      | some mt =>
        [⟨id, name, size.getD 0, lm, mt.getD "application/octet-stream", pp.getD ""⟩]
      | none => []

end

/-- A remote tree node with pagination forgotten: the spec-side view of
the remote tree, for stating that the lister's output is the plain
depth-first traversal regardless of how each folder's listing was
paginated. -/
inductive FlatItem where
  | mk (id : String) (name : String) (size : Option Nat)
      (lastModified : Option String) (folderFacet : Bool)
      (fileFacet : Option (Option String)) (parentPath : Option String)
      (children : List FlatItem)

mutual

/-- Forget the pagination of a raw item's subtree. -/
def flattenItem : RawItem → FlatItem
  | .mk id name size lm ff filef pp pages =>
    .mk id name size lm ff filef pp (flattenPages pages)

/-- Concatenate a listing's pages into the folder's child sequence. -/
def flattenPages : List (List RawItem) → List FlatItem
  | [] => []
  | page :: rest => flattenPage page ++ flattenPages rest

/-- Forget pagination below every item of one page. -/
def flattenPage : List RawItem → List FlatItem
  | [] => []
  | it :: rest => flattenItem it :: flattenPage rest

end

mutual

/-- Modelled from the spec's words (sections 4.2 and 8): the simple
depth-first recursion over the pagination-free tree — sibling order
preserved, a subfolder's contents inserted at the point the subfolder is
encountered. -/
def dfsFiles : List FlatItem → List FileDesc
  | [] => []
  | it :: rest => dfsItem it ++ dfsFiles rest

/-- Modelled from the spec's words: one child of the depth-first
recursion — a folder expands to its subtree's files, a file emits a
descriptor with id, name, size, last-modified, MIME type (default
application/octet-stream when absent) and parent path. -/
def dfsItem : FlatItem → List FileDesc
  | .mk id name size lm ff filef pp children =>
    if ff then dfsFiles children
    else
      match filef with
      | some mt =>
        [⟨id, name, size.getD 0, lm, mt.getD "application/octet-stream", pp.getD ""⟩]
      | none => []

end

mutual

/-- Modelled from the spec's words: the number N of files in the remote
tree. -/
def countFiles : List FlatItem → Nat
  | [] => 0
  | it :: rest => countItem it + countFiles rest

/-- Files contributed by one child: a folder contributes its subtree's
file count, a file-faceted child one, a facet-less child nothing. -/
def countItem : FlatItem → Nat
  | .mk _ _ _ _ ff filef _ children =>
    if ff then countFiles children
    else
      match filef with
      | some _ => 1
      | none => 0

end

theorem dfsFiles_append (a b : List FlatItem) :
    dfsFiles (a ++ b) = dfsFiles a ++ dfsFiles b := by
  induction a with
  | nil => rw [List.nil_append, dfsFiles, List.nil_append]
  | cons hd tl ih => rw [List.cons_append, dfsFiles, dfsFiles, ih, List.append_assoc]

mutual

theorem dfsFiles_length : ∀ l : List FlatItem, (dfsFiles l).length = countFiles l
  | [] => by rw [dfsFiles, countFiles, List.length_nil]
  | it :: rest => by
    rw [dfsFiles, countFiles, List.length_append, dfsFiles_length rest,
      dfsItem_length it]

theorem dfsItem_length : ∀ it : FlatItem, (dfsItem it).length = countItem it
  | .mk id name size lm ff filef pp children => by
    simp only [dfsItem, countItem]
    cases ff with
    | true => simp only [if_true]; exact dfsFiles_length children
    | false => cases filef <;> simp

end

mutual

theorem listFolderContents_eq_dfs : ∀ pages : List (List RawItem),
    listFolderContents pages = dfsFiles (flattenPages pages)
  | [] => by rw [listFolderContents, flattenPages, dfsFiles]
  | page :: rest => by
    rw [listFolderContents, flattenPages, dfsFiles_append,
      listItems_eq_dfs page, listFolderContents_eq_dfs rest]

theorem listItems_eq_dfs : ∀ items : List RawItem,
    listItems items = dfsFiles (flattenPage items)
  | [] => by rw [listItems, flattenPage, dfsFiles]
  | it :: rest => by
    rw [listItems, flattenPage, dfsFiles, listItems_eq_dfs rest,
      listItem_eq_dfs it]

theorem listItem_eq_dfs : ∀ it : RawItem, listItem it = dfsItem (flattenItem it)
  | .mk id name size lm ff filef pp pages => by
    rw [flattenItem]
    simp only [listItem, dfsItem]
    cases ff with
    | true => simp only [if_true]; exact listFolderContents_eq_dfs pages
    | false => cases filef <;> simp

end

/-- C4: for every remote tree and every pagination of each folder's
listing, list_folder_contents returns the descriptor list of the simple
depth-first recursion over the pagination-free tree (sibling order
preserved, a subfolder's contents inserted where the subfolder is
encountered, each descriptor carrying id, name, size, last-modified,
defaulted MIME type and parent path), and its length is exactly the
number of files in the tree. -/
theorem listFolder_dfs_and_count (pages : List (List RawItem)) :
    listFolderContents pages = dfsFiles (flattenPages pages) ∧
      (listFolderContents pages).length = countFiles (flattenPages pages) :=
  ⟨listFolderContents_eq_dfs pages, by
    rw [listFolderContents_eq_dfs pages]; exact dfsFiles_length _⟩

theorem listItems_append (a b : List RawItem) :
    listItems (a ++ b) = listItems a ++ listItems b := by
  induction a with
  | nil => rw [List.nil_append, listItems, List.nil_append]
  | cons hd tl ih => rw [List.cons_append, listItems, listItems, ih, List.append_assoc]

/-- C10: the lister recurses exactly into folder-faceted children,
emits one descriptor exactly for file-faceted children, and a child with
neither facet is silently dropped: it contributes nothing wherever it
occurs in a listing, so the returned list — and with it the preview
count and the run's total, both defined as that list's length — is
unchanged by its presence. -/
theorem lister_facet_dispatch (id name : String) (size : Option Nat)
    (lm : Option String) (mt : Option String) (pp : Option String)
    (pages : List (List RawItem)) (xs ys : List RawItem) :
    (∀ filef, listItem (.mk id name size lm true filef pp pages) = listFolderContents pages) ∧
      listItem (.mk id name size lm false (some mt) pp pages) =
        [⟨id, name, size.getD 0, lm, mt.getD "application/octet-stream", pp.getD ""⟩] ∧
      listItem (.mk id name size lm false none pp pages) = [] ∧
      listItems (xs ++ .mk id name size lm false none pp pages :: ys) = listItems (xs ++ ys) ∧
      (listItems (xs ++ .mk id name size lm false none pp pages :: ys)).length
        = (listItems (xs ++ ys)).length := by
  have h0 : listItem (.mk id name size lm false none pp pages) = [] := by
    simp [listItem]
  have hdrop : listItems (xs ++ .mk id name size lm false none pp pages :: ys)
      = listItems (xs ++ ys) := by
    rw [listItems_append, listItems_append, listItems, h0, List.nil_append]
  refine ⟨fun filef => ?_, ?_, h0, hdrop, by rw [hdrop]⟩
  · simp [listItem]
  · simp [listItem]

/-- One entry of the persisted sync_logs list (add_sync_log,
sharepoint.py lines 405-419). -/
structure LogEntry where
  timestamp : Nat
  level : String
  message : String
  file_name : Option String
deriving DecidableEq, Repr

/-- The mutable run-state fields of the persisted sharepoint_sync row
(models/sharepoint_sync.py).  update_sync_by_id dumps an update form
with exclude_unset, so each update below overwrites exactly the fields
the source passes at that call site. -/
structure SyncRecord where
  sync_status : String
  sync_error : Option String
  sync_progress : Nat
  sync_total : Nat
  sync_logs : List LogEntry
  last_sync_at : Option Nat
  file_count : Nat
deriving DecidableEq, Repr

/-- The bounded append of add_sync_log (sharepoint.py lines 409-418):
append the entry, then keep only the most recent 100 entries
(logs[-100:]) when the list exceeds 100. -/
def addLogList (logs : List LogEntry) (e : LogEntry) : List LogEntry :=
  let l := logs ++ [e]
  if 100 < l.length then l.drop (l.length - 100) else l

/-- add_sync_log applied to the job record (read sync_logs, append
bounded, write sync_logs back). -/
def addSyncLog (st : SyncRecord) (t : Nat) (level msg : String)
    (fn : Option String) : SyncRecord :=
  { st with sync_logs := addLogList st.sync_logs ⟨t, level, msg, fn⟩ }

/-- The most recent n entries of a list (Python l[-n:]). -/
def lastN {α : Type} (n : Nat) (l : List α) : List α :=
  l.drop (l.length - n)

/-- The stored-file fields get_existing_sharepoint_files and the
per-item insert read or write inside a file row's meta dict
(sharepoint.py lines 384-402 and 522-541).  The stored file_id is
carried in the skip-set but never read back by the sync. -/
structure FileRec where
  file_id : String
  sync_id : String
  sp_item_id : String
  last_modified : Option String
deriving DecidableEq, Repr

/-- Insert-or-overwrite into the Python dict built by
get_existing_sharepoint_files: first-insertion position kept, value
overwritten on a duplicate key. -/
def upsert : List (String × Option String) → String → Option String →
    List (String × Option String)
  | [], k, v => [(k, v)]
  | (k', v') :: rest, k, v =>
    if k' = k then (k', v) :: rest else (k', v') :: upsert rest k v

/-- The fold of get_existing_sharepoint_files (sharepoint.py lines
384-402) over the file table in storage order: rows tagged with this
sync's id whose sharepoint_item_id is truthy (nonempty) are indexed by
item id, mapping to their stored sharepoint_last_modified. -/
def getExistingFrom (syncId : String) :
    List (String × Option String) → List FileRec → List (String × Option String)
  | acc, [] => acc
  | acc, f :: rest =>
    getExistingFrom syncId
      (if f.sync_id = syncId ∧ f.sp_item_id ≠ "" then
        upsert acc f.sp_item_id f.last_modified
       else acc) rest

/-- get_existing_sharepoint_files over the whole file table. -/
def getExisting (syncId : String) (db : List FileRec) : List (String × Option String) :=
  getExistingFrom syncId [] db

/-- Outcome of the file-record insert and knowledge attachment for a
downloaded item (sharepoint.py lines 533-562), decided by the
environment: everything succeeds; Files.insert_new_file returns falsy;
Knowledges.add_file_to_knowledge_by_id returns falsy; or the attachment
raises. -/
inductive PersistOutcome where
  | ok
  | insertNone
  | knowledgeNone
  | knowledgeRaise (msg : String)
deriving DecidableEq, Repr

/-- What the environment does when item i is downloaded and persisted
(sharepoint.py lines 503-562): download_file_from_sharepoint raises
TokenExpiredError; the download or storage upload raises some other
exception with the given message; or the download succeeds — returning
the metadata file name used from then on — followed by the persistence
outcome. -/
inductive ItemOutcome where
  | downloadTokenExpired
  | downloadRaise (msg : String)
  | persist (dlName : String) (pr : PersistOutcome)
deriving DecidableEq, Repr

/-- Externally observable side effects of the per-item loop, tagged by
the item's 0-based index: the progress write, the download call, and the
file-record insert. -/
inductive Event where
  | progressUpdate (idx : Nat)
  | download (idx : Nat)
  | insertRecord (idx : Nat)
deriving DecidableEq, Repr

/-- The item index an event belongs to. -/
def Event.idx : Event → Nat
  | .progressUpdate i => i
  | .download i => i
  | .insertRecord i => i

/-- The job record together with the run's full append trace of log
entries; sync_logs is the trace's bounded suffix, the trace itself is
the unbounded observation of every append. -/
structure JobState where
  record : SyncRecord
  trace : List LogEntry
deriving DecidableEq, Repr

/-- One add_sync_log call: bounded append into the record, and the full
entry onto the trace. -/
def jobLog (js : JobState) (t : Nat) (level msg : String) (fn : Option String) : JobState :=
  ⟨addSyncLog js.record t level msg fn, js.trace ++ [⟨t, level, msg, fn⟩]⟩

/-- State threaded through the per-item loop of run_sync_in_background
(sharepoint.py lines 462-467): the shared job record (with trace), the
file table, and the local counters synced_count, skipped_count, errors
and current_progress, plus in-model the event log. -/
structure LoopState where
  js : JobState
  db : List FileRec
  synced : Nat
  skipped : Nat
  errors : List String
  progress : Nat
  events : List Event
deriving DecidableEq, Repr

/-- How the per-item loop ends: an early return on observing
cancellation, or normal completion. -/
inductive LoopResult where
  | cancelled (s : LoopState)
  | done (s : LoopState)
deriving DecidableEq, Repr

/-- The file record created for a newly downloaded item (sharepoint.py
lines 522-541): meta tags sharepoint_item_id, sharepoint_sync_id and
sharepoint_last_modified (the fields the skip-set later reads). -/
def mkFileRec (syncId : String) (freshId : Nat → String) (i : Nat) (f : FileDesc) : FileRec :=
  ⟨freshId i, syncId, f.id, f.lastModifiedDateTime⟩

/-- Append the new file record to the table and record the insert event. -/
def insertFileRec (syncId : String) (freshId : Nat → String) (i : Nat) (f : FileDesc)
    (s : LoopState) : LoopState :=
  { s with
    db := s.db ++ [mkFileRec syncId freshId i f],
    events := s.events ++ [Event.insertRecord i] }

/-- The body of the per-item loop after the cancellation check
(sharepoint.py lines 476-567) for the item f at index i: increment and
persist progress; skip when the item id is in the skip-set (unchanged or
already existing); otherwise download and persist, with every raised
exception caught here, logged (message truncated to 100 characters
behind an Error: prefix) and recorded in errors. -/
def processItem (existing : List (String × Option String)) (syncId : String)
    (outcomes : Nat → ItemOutcome) (freshId : Nat → String) (now : Nat)
    (i : Nat) (f : FileDesc) (s : LoopState) : LoopState :=
  let progress := s.progress + 1
  let s := { s with
             progress := progress,
             js := ⟨{ s.js.record with sync_progress := progress }, s.js.trace⟩,
             events := s.events ++ [Event.progressUpdate i] }
  match existing.lookup f.id with
  | some lm =>
    if lm = f.lastModifiedDateTime then
      { s with
        skipped := s.skipped + 1,
        js := jobLog s.js now "skip" "Skipped (unchanged)" (some f.name) }
    else
      { s with
        skipped := s.skipped + 1,
        js := jobLog s.js now "skip" "Skipped (already exists)" (some f.name) }
  | none =>
    let s := { s with events := s.events ++ [Event.download i] }
    match outcomes i with
    | .downloadTokenExpired =>
      { s with
        errors := s.errors ++ ["Error syncing " ++ f.name ++ ": " ++ expiredMsg],
        js := jobLog s.js now "error" ("Error: " ++ expiredMsg.take 100) (some f.name) }
    | .downloadRaise m =>
      { s with
        errors := s.errors ++ ["Error syncing " ++ f.name ++ ": " ++ m],
        js := jobLog s.js now "error" ("Error: " ++ m.take 100) (some f.name) }
    | .persist dlName pr =>
      match pr with
      | .ok =>
        let s := insertFileRec syncId freshId i f s
        { s with
          synced := s.synced + 1,
          js := jobLog s.js now "success" "Synced successfully" (some dlName) }
      | .insertNone =>
        { s with
          errors := s.errors ++ ["Failed to create file record for " ++ dlName],
          js := jobLog s.js now "error" "Failed to create file record" (some dlName) }
      | .knowledgeNone =>
        let s := insertFileRec syncId freshId i f s
        { s with
          errors := s.errors ++ ["Failed to add " ++ dlName ++ " to knowledge base"],
          js := jobLog s.js now "error" "Failed to add to knowledge base" (some dlName) }
      | .knowledgeRaise m =>
        let s := insertFileRec syncId freshId i f s
        { s with
          errors := s.errors ++ ["Failed to add " ++ dlName ++ ": " ++ m],
          js := jobLog s.js now "error" ("Error: " ++ m.take 100) (some dlName) }

/-- The cancel endpoint's write (sharepoint.py lines 183-190), landing
on the shared record. -/
def applyCancelWrite (js : JobState) : JobState :=
  ⟨{ js.record with
     sync_status := "cancelled",
     sync_error := some "Sync was cancelled by user" }, js.trace⟩

/-- The per-item loop of run_sync_in_background (sharepoint.py lines
467-567).  cancelIdx = some c places the external cancellation write
between the processing of item c-1 and the status re-read for item c
(c = 0: before the first item; c not less than the list length: the
write never lands during the loop).  Every iteration re-reads the shared
record first and returns early when it reads cancelled, appending the
cancellation log and leaving the terminal state untouched. -/
def syncLoop (existing : List (String × Option String)) (syncId : String)
    (outcomes : Nat → ItemOutcome) (cancelIdx : Option Nat)
    (freshId : Nat → String) (now : Nat) :
    Nat → List FileDesc → LoopState → LoopResult
  | _, [], s => .done s
  | i, f :: rest, s =>
    let s1 := if cancelIdx = some i then { s with js := applyCancelWrite s.js } else s
    if s1.js.record.sync_status = "cancelled" then
      .cancelled { s1 with js := jobLog s1.js now "info" "Sync cancelled by user" none }
    else
      syncLoop existing syncId outcomes cancelIdx freshId now (i + 1) rest
        (processItem existing syncId outcomes freshId now i f s1)

/-- What the folder-listing phase does: the descriptor list, or a raised
TokenExpiredError, or any other raised exception. -/
inductive ListErr where
  | tokenExpired
  | raised (msg : String)
deriving DecidableEq, Repr

/-- Observable outcome of one orchestrator run: the job record as left
in the store, the file table, the full log-append trace, and the
per-item events. -/
structure RunResult where
  record : SyncRecord
  db : List FileRec
  trace : List LogEntry
  events : List Event
deriving DecidableEq, Repr

/-- Log message bound at sharepoint.py line 442. -/
def foundExistingMsg (n : Nat) : String := s!"Found {n} existing synced files"

/-- Log message bound at sharepoint.py line 453. -/
def foundFilesMsg (n : Nat) : String := s!"Found {n} files in SharePoint folder"

/-- Completion log message (sharepoint.py line 574). -/
def completionMsg (sy sk er : Nat) : String :=
  s!"Completed: {sy} new, {sk} skipped, {er} errors"

/-- The sync_error written on the token-expired abort (sharepoint.py
line 595); note its wording differs from expiredMsg. -/
def reAuthErrMsg : String :=
  "Access token expired. Please click Sync again to re-authenticate."

/-- run_sync_in_background (sharepoint.py lines 422-607).  st0 and db0
are the job record and file table at entry; listing is what
list_folder_contents returns or raises; outcomes decides each item's
download/persistence behavior; cancelIdx places the external
cancellation write; freshId models uuid4; now models int(time.time()). -/
def runSync (syncId : String) (st0 : SyncRecord) (db0 : List FileRec)
    (listing : Except ListErr (List FileDesc)) (outcomes : Nat → ItemOutcome)
    (cancelIdx : Option Nat) (freshId : Nat → String) (now : Nat) : RunResult :=
  let js0 : JobState := ⟨{ st0 with sync_logs := [] }, []⟩
  let js1 := jobLog js0 now "info" "Sync started" none
  let existing := getExisting syncId db0
  let js2 := jobLog js1 now "info" (foundExistingMsg existing.length) none
  match listing with
  | .error .tokenExpired =>
    let js3 := jobLog js2 now "error" "Token expired - please click Sync to re-authenticate" none
    ⟨{ js3.record with sync_status := "token_expired", sync_error := some reAuthErrMsg },
      db0, js3.trace, []⟩
  | .error (.raised m) =>
    let js3 := jobLog js2 now "error" ("Sync failed: " ++ m.take 200) none
    ⟨{ js3.record with sync_status := "error", sync_error := some m }, db0, js3.trace, []⟩
  | .ok files =>
    let js3 := jobLog js2 now "info" (foundFilesMsg files.length) none
    let js4 : JobState := ⟨{ js3.record with sync_total := files.length, sync_progress := 0 },
      js3.trace⟩
    match syncLoop existing syncId outcomes cancelIdx freshId now 0 files
        ⟨js4, db0, 0, 0, [], 0, []⟩ with
    | .cancelled s => ⟨s.js.record, s.db, s.js.trace, s.events⟩
    | .done s =>
      let syncError := if s.errors.isEmpty then none
        else some (String.intercalate "; " (s.errors.take 5))
      let js5 := jobLog s.js now "info" (completionMsg s.synced s.skipped s.errors.length) none
      ⟨{ js5.record with
          sync_status := if s.errors.isEmpty then "synced" else "error",
          sync_error := syncError,
          last_sync_at := some now,
          file_count := s.synced + s.skipped }, s.db, js5.trace, s.events⟩

theorem lastN_of_le {α : Type} (n : Nat) (l : List α) (h : l.length ≤ n) :
    lastN n l = l := by
  rw [lastN, Nat.sub_eq_zero_of_le h, List.drop_zero]

theorem lastN_length_le {α : Type} (n : Nat) (l : List α) : (lastN n l).length ≤ n := by
  rw [lastN, List.length_drop]
  omega

theorem addLogList_eq_lastN (logs : List LogEntry) (e : LogEntry) :
    addLogList logs e = lastN 100 (logs ++ [e]) := by
  simp only [addLogList, lastN]
  split
  · rfl
  · rename_i h
    rw [Nat.sub_eq_zero_of_le (by omega), List.drop_zero]

theorem lastN_append_of_le {α : Type} (n : Nat) (a b : List α) (h : n ≤ b.length) :
    lastN n (a ++ b) = lastN n b := by
  rw [lastN, lastN, List.length_append,
    show a.length + b.length - n = a.length + (b.length - n) by omega,
    ← List.drop_drop, List.drop_left]

theorem lastN_lastN_append {α : Type} (n : Nat) (l m : List α) :
    lastN n (lastN n l ++ m) = lastN n (l ++ m) := by
  by_cases h : n ≤ l.length
  · have h2 : n ≤ (lastN n l ++ m).length := by
      rw [List.length_append, lastN, List.length_drop]
      omega
    have hsplit : l ++ m = l.take (l.length - n) ++ (lastN n l ++ m) := by
      rw [lastN, ← List.append_assoc, List.take_append_drop]
    rw [hsplit, lastN_append_of_le _ _ _ h2]
  · rw [lastN_of_le n l (by omega)]

/-- C5: the persisted logs list never exceeds 100 entries — for every
run starting from a stored list of at most 100 entries and any sequence
of add_sync_log appends, sequentially folding the bounded append leaves
at most 100 entries, and what is stored is exactly the most recent 100
of everything appended, in append order (oldest dropped first).  As any
prefix of the append sequence is itself such a sequence, the bound holds
after each individual append. -/
theorem logs_bounded (init appends : List LogEntry) (h : init.length ≤ 100) :
    (appends.foldl addLogList init).length ≤ 100 ∧
      appends.foldl addLogList init = lastN 100 (init ++ appends) := by
  induction appends generalizing init with
  | nil =>
    constructor
    · simpa using h
    · rw [List.foldl_nil, List.append_nil, lastN_of_le _ _ h]
  | cons a as ih =>
    have h1 : (addLogList init a).length ≤ 100 := by
      rw [addLogList_eq_lastN]
      exact lastN_length_le _ _
    have hfold := ih (addLogList init a) h1
    rw [List.foldl_cons]
    refine ⟨hfold.1, ?_⟩
    rw [hfold.2, addLogList_eq_lastN, lastN_lastN_append, List.append_assoc]
    rfl

/-- The spec's log-bounding example: 152 appends (150 item entries plus
bootstrap and completion). -/
def witnessLogEntries : List LogEntry :=
  (List.range 152).map (fun i => ⟨i, "info", "entry", none⟩)

/-- Witness for logs_bounded: after 152 appends into an empty list the
stored list is the most recent 100 entries — exactly 100 long. -/
theorem logs_bounded_witness :
    ((witnessLogEntries.foldl addLogList []).length ≤ 100 ∧
      witnessLogEntries.foldl addLogList [] = lastN 100 ([] ++ witnessLogEntries)) ∧
      (witnessLogEntries.foldl addLogList []).length = 100 := by
  have hmain := logs_bounded [] witnessLogEntries (by simp)
  refine ⟨hmain, ?_⟩
  have h3 : witnessLogEntries.length = 152 := by simp [witnessLogEntries]
  rw [hmain.2, lastN, List.length_drop, List.nil_append, h3]

/-- The single log entry the per-item body appends for item f at index
i (read off processItem, for stating loop-level results). -/
def itemLog (existing : List (String × Option String)) (outcomes : Nat → ItemOutcome)
    (now i : Nat) (f : FileDesc) : LogEntry :=
  match existing.lookup f.id with
  | some lm =>
    if lm = f.lastModifiedDateTime then ⟨now, "skip", "Skipped (unchanged)", some f.name⟩
    else ⟨now, "skip", "Skipped (already exists)", some f.name⟩
  | none =>
    match outcomes i with
    | .downloadTokenExpired => ⟨now, "error", "Error: " ++ expiredMsg.take 100, some f.name⟩
    | .downloadRaise m => ⟨now, "error", "Error: " ++ m.take 100, some f.name⟩
    | .persist dlName pr =>
      match pr with
      | .ok => ⟨now, "success", "Synced successfully", some dlName⟩
      | .insertNone => ⟨now, "error", "Failed to create file record", some dlName⟩
      | .knowledgeNone => ⟨now, "error", "Failed to add to knowledge base", some dlName⟩
      | .knowledgeRaise m => ⟨now, "error", "Error: " ++ m.take 100, some dlName⟩

/-- The error strings the per-item body appends to errors for item f. -/
def itemErrs (existing : List (String × Option String)) (outcomes : Nat → ItemOutcome)
    (i : Nat) (f : FileDesc) : List String :=
  match existing.lookup f.id with
  | some _ => []
  | none =>
    match outcomes i with
    | .downloadTokenExpired => ["Error syncing " ++ f.name ++ ": " ++ expiredMsg]
    | .downloadRaise m => ["Error syncing " ++ f.name ++ ": " ++ m]
    | .persist dlName pr =>
      match pr with
      | .ok => []
      | .insertNone => ["Failed to create file record for " ++ dlName]
      | .knowledgeNone => ["Failed to add " ++ dlName ++ " to knowledge base"]
      | .knowledgeRaise m => ["Failed to add " ++ dlName ++ ": " ++ m]

/-- The synced_count increment for item f. -/
def itemSynced (existing : List (String × Option String)) (outcomes : Nat → ItemOutcome)
    (i : Nat) (f : FileDesc) : Nat :=
  match existing.lookup f.id with
  | some _ => 0
  | none =>
    match outcomes i with
    | .persist _ .ok => 1
    | _ => 0

/-- The skipped_count increment for item f. -/
def itemSkipped (existing : List (String × Option String)) (f : FileDesc) : Nat :=
  match existing.lookup f.id with
  | some _ => 1
  | none => 0

/-- The file records the per-item body inserts for item f. -/
def itemRecs (existing : List (String × Option String)) (syncId : String)
    (freshId : Nat → String) (outcomes : Nat → ItemOutcome) (i : Nat) (f : FileDesc) :
    List FileRec :=
  match existing.lookup f.id with
  | some _ => []
  | none =>
    match outcomes i with
    | .downloadTokenExpired => []
    | .downloadRaise _ => []
    | .persist _ pr =>
      match pr with
      | .insertNone => []
      | _ => [mkFileRec syncId freshId i f]

/-- The events the per-item body produces for item f. -/
def itemEvents (existing : List (String × Option String)) (outcomes : Nat → ItemOutcome)
    (i : Nat) (f : FileDesc) : List Event :=
  match existing.lookup f.id with
  | some _ => [Event.progressUpdate i]
  | none =>
    match outcomes i with
    | .downloadTokenExpired => [Event.progressUpdate i, Event.download i]
    | .downloadRaise _ => [Event.progressUpdate i, Event.download i]
    | .persist _ pr =>
      match pr with
      | .insertNone => [Event.progressUpdate i, Event.download i]
      | _ => [Event.progressUpdate i, Event.download i, Event.insertRecord i]

theorem processItem_spec (existing : List (String × Option String)) (syncId : String)
    (outcomes : Nat → ItemOutcome) (freshId : Nat → String) (now i : Nat)
    (f : FileDesc) (s : LoopState) :
    processItem existing syncId outcomes freshId now i f s =
      { js := ⟨{ s.js.record with
                 sync_progress := s.progress + 1,
                 sync_logs := addLogList s.js.record.sync_logs
                   (itemLog existing outcomes now i f) },
               s.js.trace ++ [itemLog existing outcomes now i f]⟩,
        db := s.db ++ itemRecs existing syncId freshId outcomes i f,
        synced := s.synced + itemSynced existing outcomes i f,
        skipped := s.skipped + itemSkipped existing f,
        errors := s.errors ++ itemErrs existing outcomes i f,
        progress := s.progress + 1,
        events := s.events ++ itemEvents existing outcomes i f } := by
  cases hx : existing.lookup f.id with
  | some lm =>
    by_cases he : lm = f.lastModifiedDateTime <;>
      simp [processItem, itemLog, itemErrs, itemSynced, itemSkipped, itemRecs, itemEvents,
        jobLog, addSyncLog, insertFileRec, hx, he, List.append_assoc]
  | none =>
    cases ho : outcomes i with
    | downloadTokenExpired =>
      simp [processItem, itemLog, itemErrs, itemSynced, itemSkipped, itemRecs, itemEvents,
        jobLog, addSyncLog, insertFileRec, hx, ho, List.append_assoc]
    | downloadRaise m =>
      simp [processItem, itemLog, itemErrs, itemSynced, itemSkipped, itemRecs, itemEvents,
        jobLog, addSyncLog, insertFileRec, hx, ho, List.append_assoc]
    | persist dlName pr =>
      cases pr <;>
        simp [processItem, itemLog, itemErrs, itemSynced, itemSkipped, itemRecs, itemEvents,
          jobLog, addSyncLog, insertFileRec, hx, ho, List.append_assoc]

/-- Indexed left fold of the per-item body over the remaining work list. -/
def foldIdx {β : Type} (g : Nat → FileDesc → β → β) : Nat → List FileDesc → β → β
  | _, [], s => s
  | i, f :: rest, s => foldIdx g (i + 1) rest (g i f s)

/-- All error strings the loop accumulates over fs starting at index i. -/
def runErrs (existing : List (String × Option String)) (outcomes : Nat → ItemOutcome) :
    Nat → List FileDesc → List String
  | _, [] => []
  | i, f :: rest => itemErrs existing outcomes i f ++ runErrs existing outcomes (i + 1) rest

/-- All per-item log entries over fs starting at index i. -/
def runLogs (existing : List (String × Option String)) (outcomes : Nat → ItemOutcome)
    (now : Nat) : Nat → List FileDesc → List LogEntry
  | _, [] => []
  | i, f :: rest => itemLog existing outcomes now i f :: runLogs existing outcomes now (i + 1) rest

/-- Total synced_count over fs starting at index i. -/
def runSyncedCount (existing : List (String × Option String)) (outcomes : Nat → ItemOutcome) :
    Nat → List FileDesc → Nat
  | _, [] => 0
  | i, f :: rest => itemSynced existing outcomes i f + runSyncedCount existing outcomes (i + 1) rest

/-- Total skipped_count over fs. -/
def runSkippedCount (existing : List (String × Option String)) : List FileDesc → Nat
  | [] => 0
  | f :: rest => itemSkipped existing f + runSkippedCount existing rest

/-- All file records inserted over fs starting at index i. -/
def runRecs (existing : List (String × Option String)) (syncId : String)
    (freshId : Nat → String) (outcomes : Nat → ItemOutcome) :
    Nat → List FileDesc → List FileRec
  | _, [] => []
  | i, f :: rest =>
    itemRecs existing syncId freshId outcomes i f ++ runRecs existing syncId freshId outcomes (i + 1) rest

/-- All events produced over fs starting at index i. -/
def runEvents (existing : List (String × Option String)) (outcomes : Nat → ItemOutcome) :
    Nat → List FileDesc → List Event
  | _, [] => []
  | i, f :: rest => itemEvents existing outcomes i f ++ runEvents existing outcomes (i + 1) rest

theorem foldIdx_processItem (existing : List (String × Option String)) (syncId : String)
    (outcomes : Nat → ItemOutcome) (freshId : Nat → String) (now : Nat) :
    ∀ (fs : List FileDesc) (i : Nat) (s : LoopState),
      s.js.record.sync_progress = s.progress →
      foldIdx (processItem existing syncId outcomes freshId now) i fs s =
        { js := ⟨{ s.js.record with
                   sync_progress := s.progress + fs.length,
                   sync_logs := (runLogs existing outcomes now i fs).foldl addLogList
                     s.js.record.sync_logs },
                 s.js.trace ++ runLogs existing outcomes now i fs⟩,
          db := s.db ++ runRecs existing syncId freshId outcomes i fs,
          synced := s.synced + runSyncedCount existing outcomes i fs,
          skipped := s.skipped + runSkippedCount existing fs,
          errors := s.errors ++ runErrs existing outcomes i fs,
          progress := s.progress + fs.length,
          events := s.events ++ runEvents existing outcomes i fs } := by
  intro fs
  induction fs with
  | nil =>
    intro i s hinv
    obtain ⟨⟨⟨st, er, pr, tot, lg, la, fc⟩, tr⟩, db, sy, sk, errs, prog, ev⟩ := s
    simp only [JobState.record] at hinv
    subst hinv
    simp [foldIdx, runLogs, runRecs, runSyncedCount, runSkippedCount, runErrs, runEvents]
  | cons f rest ih =>
    intro i s hinv
    rw [show foldIdx (processItem existing syncId outcomes freshId now) i (f :: rest) s
        = foldIdx (processItem existing syncId outcomes freshId now) (i + 1) rest
            (processItem existing syncId outcomes freshId now i f s) from rfl]
    rw [processItem_spec]
    rw [ih (i + 1) _ (by simp)]
    simp [runLogs, runRecs, runSyncedCount, runSkippedCount, runErrs, runEvents,
      List.append_assoc, List.foldl_cons, Nat.add_assoc, Nat.add_comm, Nat.add_left_comm]

theorem syncLoop_no_cancel (existing : List (String × Option String)) (syncId : String)
    (outcomes : Nat → ItemOutcome) (cancelIdx : Option Nat) (freshId : Nat → String)
    (now : Nat) :
    ∀ (fs : List FileDesc) (i : Nat) (s : LoopState),
      (∀ j, i ≤ j → j < i + fs.length → cancelIdx ≠ some j) →
      s.js.record.sync_status ≠ "cancelled" →
      syncLoop existing syncId outcomes cancelIdx freshId now i fs s =
        .done (foldIdx (processItem existing syncId outcomes freshId now) i fs s) := by
  intro fs
  induction fs with
  | nil => intro i s _ _; rfl
  | cons f rest ih =>
    intro i s hnc hst
    have hci : cancelIdx ≠ some i := hnc i (Nat.le_refl i) (by simp)
    have hstep : syncLoop existing syncId outcomes cancelIdx freshId now i (f :: rest) s
        = syncLoop existing syncId outcomes cancelIdx freshId now (i + 1) rest
            (processItem existing syncId outcomes freshId now i f s) := by
      simp only [syncLoop]
      rw [if_neg hci, if_neg hst]
    rw [hstep]
    have hst' : (processItem existing syncId outcomes freshId now i f s).js.record.sync_status
        = s.js.record.sync_status := by
      rw [processItem_spec]
    refine ih (i + 1) _ (fun j h1 h2 => hnc j (by omega) (by simp at h2 ⊢; omega)) ?_
    rw [hst']
    exact hst

/-- An info-level log entry with no file name. -/
def infoEntry (t : Nat) (msg : String) : LogEntry := ⟨t, "info", msg, none⟩

/-- The three bootstrap log entries of a run that reaches the loop. -/
def bootLogs (t n1 n2 : Nat) : List LogEntry :=
  [infoEntry t "Sync started", infoEntry t (foundExistingMsg n1), infoEntry t (foundFilesMsg n2)]

/-- Characterization of a whole cancellation-free run over a successful
listing: the final record, file table, trace and events, all expressed
through the per-item folds. -/
theorem runSync_ok (syncId : String) (st0 : SyncRecord) (db0 : List FileRec)
    (files : List FileDesc) (outcomes : Nat → ItemOutcome) (freshId : Nat → String)
    (now : Nat) (hst : st0.sync_status ≠ "cancelled") :
    runSync syncId st0 db0 (.ok files) outcomes none freshId now =
      ⟨{ sync_status :=
           if (runErrs (getExisting syncId db0) outcomes 0 files).isEmpty then "synced"
           else "error",
         sync_error :=
           if (runErrs (getExisting syncId db0) outcomes 0 files).isEmpty then none
           else some (String.intercalate "; "
             ((runErrs (getExisting syncId db0) outcomes 0 files).take 5)),
         sync_progress := files.length,
         sync_total := files.length,
         sync_logs :=
           (bootLogs now (getExisting syncId db0).length files.length
             ++ runLogs (getExisting syncId db0) outcomes now 0 files
             ++ [infoEntry now (completionMsg
                  (runSyncedCount (getExisting syncId db0) outcomes 0 files)
                  (runSkippedCount (getExisting syncId db0) files)
                  (runErrs (getExisting syncId db0) outcomes 0 files).length)]).foldl
             addLogList [],
         last_sync_at := some now,
         file_count := runSyncedCount (getExisting syncId db0) outcomes 0 files
           + runSkippedCount (getExisting syncId db0) files },
       db0 ++ runRecs (getExisting syncId db0) syncId freshId outcomes 0 files,
       bootLogs now (getExisting syncId db0).length files.length
         ++ runLogs (getExisting syncId db0) outcomes now 0 files
         ++ [infoEntry now (completionMsg
              (runSyncedCount (getExisting syncId db0) outcomes 0 files)
              (runSkippedCount (getExisting syncId db0) files)
              (runErrs (getExisting syncId db0) outcomes 0 files).length)],
       runEvents (getExisting syncId db0) outcomes 0 files⟩ := by
  simp only [runSync]
  rw [syncLoop_no_cancel]
  rotate_left
  · intro j _ _
    simp
  · simp [jobLog, addSyncLog]
    exact hst
  rw [foldIdx_processItem]
  rotate_left
  · simp [jobLog, addSyncLog]
  simp [jobLog, addSyncLog, bootLogs, infoEntry, List.foldl_append, List.append_assoc,
    addLogList]

/-- C8: whenever the per-item loop completes without cancellation, the
final update sets file_count to the synced count plus the skipped count,
sync_error to the first 5 failure messages joined with "; " (null when
no failure occurred), sync_status to synced exactly when no per-item
failure occurred and to error otherwise, last_sync_at to the current
time, and the last appended log entry is the completion summary of the
counts. -/
theorem completion_final_state (syncId : String) (st0 : SyncRecord) (db0 : List FileRec)
    (files : List FileDesc) (outcomes : Nat → ItemOutcome) (freshId : Nat → String)
    (now : Nat) (hst : st0.sync_status ≠ "cancelled") :
    (runSync syncId st0 db0 (.ok files) outcomes none freshId now).record.file_count
        = runSyncedCount (getExisting syncId db0) outcomes 0 files
          + runSkippedCount (getExisting syncId db0) files ∧
      (runSync syncId st0 db0 (.ok files) outcomes none freshId now).record.sync_error
        = (if (runErrs (getExisting syncId db0) outcomes 0 files).isEmpty then none
           else some (String.intercalate "; "
             ((runErrs (getExisting syncId db0) outcomes 0 files).take 5))) ∧
      (runSync syncId st0 db0 (.ok files) outcomes none freshId now).record.sync_status
        = (if (runErrs (getExisting syncId db0) outcomes 0 files).isEmpty then "synced"
           else "error") ∧
      (runSync syncId st0 db0 (.ok files) outcomes none freshId now).record.last_sync_at
        = some now ∧
      (runSync syncId st0 db0 (.ok files) outcomes none freshId now).trace.getLast?
        = some (infoEntry now (completionMsg
            (runSyncedCount (getExisting syncId db0) outcomes 0 files)
            (runSkippedCount (getExisting syncId db0) files)
            (runErrs (getExisting syncId db0) outcomes 0 files).length)) := by
  rw [runSync_ok syncId st0 db0 files outcomes freshId now hst]
  refine ⟨rfl, rfl, rfl, rfl, ?_⟩
  exact List.getLast?_concat _

/-- A one-item work list for concrete instances. -/
def wFile : FileDesc := ⟨"it1", "a.txt", 4, some "m1", "text/plain", "/root"⟩

/-- An idle-to-syncing record as the trigger endpoint leaves it. -/
def wStart : SyncRecord := ⟨"syncing", none, 0, 0, [], none, 0⟩

/-- Witness for completion_final_state: one new item synced
successfully. -/
theorem completion_final_state_witness :
    (runSync "s" wStart [] (.ok [wFile]) (fun _ => .persist "a.txt" .ok) none
        (fun _ => "fid") 7).record.file_count = 1 ∧
      (runSync "s" wStart [] (.ok [wFile]) (fun _ => .persist "a.txt" .ok) none
        (fun _ => "fid") 7).record.sync_status = "synced" ∧
      (runSync "s" wStart [] (.ok [wFile]) (fun _ => .persist "a.txt" .ok) none
        (fun _ => "fid") 7).record.last_sync_at = some 7 := by
  have h := completion_final_state "s" wStart [] [wFile] (fun _ => .persist "a.txt" .ok)
    (fun _ => "fid") 7 (by decide)
  refine ⟨?_, ?_, h.2.2.2.1⟩
  · rw [h.1]
    rfl
  · rw [h.2.2.1]
    rfl

/-- One file descriptor whose download hits an expired token. -/
def cxFile : FileDesc :=
  ⟨"item-1", "report.docx", 10, some "2024-05-01", "application/msword", "/drives/d/root:"⟩

/-- C1 counterexample: a TokenExpiredError raised during the download of
an individual item does not stop the run with token_expired — the
per-item except Exception handler (sharepoint.py line 564) also catches
TokenExpiredError, so the run continues and completes with status error
and a written last_sync_at, never reaching the token_expired handler. -/
theorem token_expiry_mid_download_counterexample :
    (runSync "s1" wStart [] (.ok [cxFile]) (fun _ => .downloadTokenExpired) none
        (fun _ => "fid") 7).record.sync_status = "error" ∧
      (runSync "s1" wStart [] (.ok [cxFile]) (fun _ => .downloadTokenExpired) none
        (fun _ => "fid") 7).record.sync_status ≠ "token_expired" ∧
      (runSync "s1" wStart [] (.ok [cxFile]) (fun _ => .downloadTokenExpired) none
        (fun _ => "fid") 7).record.last_sync_at = some 7 := by
  refine ⟨rfl, ?_, rfl⟩
  intro h
  rw [show (runSync "s1" wStart [] (.ok [cxFile]) (fun _ => .downloadTokenExpired) none
    (fun _ => "fid") 7).record.sync_status = "error" from rfl] at h
  simp at h

/-- C1 (amended): a TokenExpiredError propagating from the folder
listing of step 3 stops the run with status token_expired, the fixed
re-authentication error message, and the matching log entry appended
last; no item is processed and the file table is untouched.  (Token
expiry during an individual item's download is instead caught by the
per-item handler, so the run continues — see the counterexample.) -/
theorem listing_token_expiry_aborts (syncId : String) (st0 : SyncRecord)
    (db0 : List FileRec) (outcomes : Nat → ItemOutcome) (cancelIdx : Option Nat)
    (freshId : Nat → String) (now : Nat) :
    (runSync syncId st0 db0 (.error .tokenExpired) outcomes cancelIdx freshId now).record.sync_status
        = "token_expired" ∧
      (runSync syncId st0 db0 (.error .tokenExpired) outcomes cancelIdx freshId now).record.sync_error
        = some reAuthErrMsg ∧
      (runSync syncId st0 db0 (.error .tokenExpired) outcomes cancelIdx freshId now).trace.getLast?
        = some ⟨now, "error", "Token expired - please click Sync to re-authenticate", none⟩ ∧
      (runSync syncId st0 db0 (.error .tokenExpired) outcomes cancelIdx freshId now).events = [] ∧
      (runSync syncId st0 db0 (.error .tokenExpired) outcomes cancelIdx freshId now).db = db0 := by
  refine ⟨rfl, rfl, ?_, rfl, rfl⟩
  simp [runSync, jobLog, addSyncLog]

theorem syncLoop_cancel_at (existing : List (String × Option String)) (syncId : String)
    (outcomes : Nat → ItemOutcome) (freshId : Nat → String) (now c : Nat) :
    ∀ (fs : List FileDesc) (i : Nat) (s : LoopState),
      i ≤ c → c - i < fs.length → s.js.record.sync_status ≠ "cancelled" →
      syncLoop existing syncId outcomes (some c) freshId now i fs s =
        .cancelled
          { foldIdx (processItem existing syncId outcomes freshId now) i (fs.take (c - i)) s with
            js := jobLog (applyCancelWrite
              (foldIdx (processItem existing syncId outcomes freshId now) i
                (fs.take (c - i)) s).js) now "info" "Sync cancelled by user" none } := by
  intro fs
  induction fs with
  | nil =>
    intro i s _ h2 _
    simp at h2
  | cons f rest ih =>
    intro i s h1 h2 hst
    by_cases hci : c = i
    · subst hci
      simp only [syncLoop, Nat.sub_self, List.take_zero, foldIdx]
      simp [applyCancelWrite]
    · have hlt : i < c := by omega
      have hstep : syncLoop existing syncId outcomes (some c) freshId now i (f :: rest) s
          = syncLoop existing syncId outcomes (some c) freshId now (i + 1) rest
              (processItem existing syncId outcomes freshId now i f s) := by
        simp only [syncLoop]
        rw [if_neg (fun h => hci (Option.some.inj h)), if_neg hst]
      have htake : (f :: rest).take (c - i) = f :: rest.take (c - (i + 1)) := by
        rw [show c - i = (c - (i + 1)) + 1 by omega, List.take_succ_cons]
      have hst' : (processItem existing syncId outcomes freshId now i f s).js.record.sync_status
          = s.js.record.sync_status := by
        rw [processItem_spec]
      rw [hstep, htake]
      exact ih (i + 1) (processItem existing syncId outcomes freshId now i f s)
        (by omega) (by simp at h2 ⊢; omega) (by rw [hst']; exact hst)

theorem itemEvents_idx (existing : List (String × Option String))
    (outcomes : Nat → ItemOutcome) (i : Nat) (f : FileDesc) :
    ∀ e ∈ itemEvents existing outcomes i f, Event.idx e = i := by
  intro e he
  cases hx : existing.lookup f.id with
  | some lm =>
    simp [itemEvents, hx] at he
    subst he
    rfl
  | none =>
    cases ho : outcomes i with
    | downloadTokenExpired =>
      simp [itemEvents, hx, ho] at he
      rcases he with h | h <;> subst h <;> rfl
    | downloadRaise m =>
      simp [itemEvents, hx, ho] at he
      rcases he with h | h <;> subst h <;> rfl
    | persist dlName pr =>
      cases pr with
      | insertNone =>
        simp [itemEvents, hx, ho] at he
        rcases he with h | h <;> subst h <;> rfl
      | ok =>
        simp [itemEvents, hx, ho] at he
        rcases he with h | h | h <;> subst h <;> rfl
      | knowledgeNone =>
        simp [itemEvents, hx, ho] at he
        rcases he with h | h | h <;> subst h <;> rfl
      | knowledgeRaise m =>
        simp [itemEvents, hx, ho] at he
        rcases he with h | h | h <;> subst h <;> rfl

theorem runEvents_idx_bound (existing : List (String × Option String))
    (outcomes : Nat → ItemOutcome) :
    ∀ (fs : List FileDesc) (i : Nat), ∀ e ∈ runEvents existing outcomes i fs,
      i ≤ Event.idx e ∧ Event.idx e < i + fs.length := by
  intro fs
  induction fs with
  | nil => intro i e he; simp [runEvents] at he
  | cons f rest ih =>
    intro i e he
    rw [runEvents, List.mem_append] at he
    rcases he with h | h
    · have := itemEvents_idx existing outcomes i f e h
      simp [this]
    · have := ih (i + 1) e h
      constructor
      · omega
      · simp
        omega

/-- C6: if the external cancellation write lands between the processing
of item k and item k+1 (and item k+1 exists), the orchestrator stops at
the re-read for item k+1: every progress write, download and
file-record insert belongs to an item of index at most k, sync_progress
stays at k+1, a cancellation log entry is appended last, and the status
remains cancelled with the cancel endpoint's error message — the
orchestrator never overwrites it with synced or error. -/
theorem cancellation_halts (syncId : String) (st0 : SyncRecord) (db0 : List FileRec)
    (files : List FileDesc) (outcomes : Nat → ItemOutcome) (freshId : Nat → String)
    (now k : Nat) (hst : st0.sync_status ≠ "cancelled") (hk : k + 1 < files.length) :
    (runSync syncId st0 db0 (.ok files) outcomes (some (k + 1)) freshId now).record.sync_status
        = "cancelled" ∧
      (runSync syncId st0 db0 (.ok files) outcomes (some (k + 1)) freshId now).record.sync_error
        = some "Sync was cancelled by user" ∧
      (∀ e ∈ (runSync syncId st0 db0 (.ok files) outcomes (some (k + 1)) freshId now).events,
        Event.idx e ≤ k) ∧
      (runSync syncId st0 db0 (.ok files) outcomes (some (k + 1)) freshId now).record.sync_progress
        = k + 1 ∧
      (runSync syncId st0 db0 (.ok files) outcomes (some (k + 1)) freshId now).trace.getLast?
        = some (infoEntry now "Sync cancelled by user") := by
  have hlen : (files.take (k + 1)).length = k + 1 := by
    rw [List.length_take]
    omega
  simp only [runSync]
  rw [syncLoop_cancel_at _ _ _ _ _ _ _ _ _ (by omega) (by omega) (by simp [jobLog, addSyncLog]; exact hst)]
  rw [foldIdx_processItem _ _ _ _ _ _ _ _ (by simp [jobLog, addSyncLog])]
  refine ⟨by simp [jobLog, addSyncLog, applyCancelWrite],
    by simp [jobLog, addSyncLog, applyCancelWrite], ?_, ?_, ?_⟩
  · intro e he
    simp [jobLog, addSyncLog, applyCancelWrite] at he
    have := runEvents_idx_bound (getExisting syncId db0) outcomes (files.take (k + 1)) 0 e he
    rw [hlen] at this
    omega
  · simp [jobLog, addSyncLog, applyCancelWrite, hlen]
  · simp only [jobLog, addSyncLog, applyCancelWrite]
    exact List.getLast?_concat _

/-- Witness for cancellation_halts: a two-item list cancelled between
item 0 and item 1. -/
theorem cancellation_halts_witness :
    (runSync "s" wStart [] (.ok [wFile, cxFile]) (fun _ => .persist "a.txt" .ok)
        (some 1) (fun _ => "fid") 7).record.sync_status = "cancelled" ∧
      (runSync "s" wStart [] (.ok [wFile, cxFile]) (fun _ => .persist "a.txt" .ok)
        (some 1) (fun _ => "fid") 7).record.sync_progress = 1 := by
  have h := cancellation_halts "s" wStart [] [wFile, cxFile] (fun _ => .persist "a.txt" .ok)
    (fun _ => "fid") 7 0 (by decide) (by decide)
  exact ⟨h.1, h.2.2.2.1⟩

theorem runErrs_append (existing : List (String × Option String))
    (outcomes : Nat → ItemOutcome) :
    ∀ (xs ys : List FileDesc) (i : Nat),
      runErrs existing outcomes i (xs ++ ys)
        = runErrs existing outcomes i xs ++ runErrs existing outcomes (i + xs.length) ys := by
  intro xs
  induction xs with
  | nil => intro ys i; simp [runErrs]
  | cons f rest ih =>
    intro ys i
    have hidx : i + (f :: rest).length = (i + 1) + rest.length := by
      simp only [List.length_cons]
      omega
    rw [hidx, List.cons_append]
    simp only [runErrs]
    rw [ih ys (i + 1), List.append_assoc]

theorem runLogs_append (existing : List (String × Option String))
    (outcomes : Nat → ItemOutcome) (now : Nat) :
    ∀ (xs ys : List FileDesc) (i : Nat),
      runLogs existing outcomes now i (xs ++ ys)
        = runLogs existing outcomes now i xs ++ runLogs existing outcomes now (i + xs.length) ys := by
  intro xs
  induction xs with
  | nil => intro ys i; simp [runLogs]
  | cons f rest ih =>
    intro ys i
    have hidx : i + (f :: rest).length = (i + 1) + rest.length := by
      simp only [List.length_cons]
      omega
    rw [hidx, List.cons_append]
    simp only [runLogs]
    rw [ih ys (i + 1), List.cons_append]

theorem runEvents_append (existing : List (String × Option String))
    (outcomes : Nat → ItemOutcome) :
    ∀ (xs ys : List FileDesc) (i : Nat),
      runEvents existing outcomes i (xs ++ ys)
        = runEvents existing outcomes i xs ++ runEvents existing outcomes (i + xs.length) ys := by
  intro xs
  induction xs with
  | nil => intro ys i; simp [runEvents]
  | cons f rest ih =>
    intro ys i
    have hidx : i + (f :: rest).length = (i + 1) + rest.length := by
      simp only [List.length_cons]
      omega
    rw [hidx, List.cons_append]
    simp only [runEvents]
    rw [ih ys (i + 1), List.append_assoc]

/-- The progress write for item i is always among that item's events. -/
theorem itemEvents_mem_progress (existing : List (String × Option String))
    (outcomes : Nat → ItemOutcome) (i : Nat) (f : FileDesc) :
    Event.progressUpdate i ∈ itemEvents existing outcomes i f := by
  cases hx : existing.lookup f.id with
  | some lm => simp [itemEvents, hx]
  | none =>
    cases ho : outcomes i with
    | downloadTokenExpired => simp [itemEvents, hx, ho]
    | downloadRaise m => simp [itemEvents, hx, ho]
    | persist dlName pr => cases pr <;> simp [itemEvents, hx, ho]

/-- When the environment makes item i raise (TokenExpiredError or any
other exception during download, or an exception during the knowledge
attachment), the error-list entry, the log message and the log file
name the per-item handler produces. -/
def raisedInfo (f : FileDesc) : ItemOutcome → Option (String × String × String)
  | .downloadTokenExpired =>
    some ("Error syncing " ++ f.name ++ ": " ++ expiredMsg,
      "Error: " ++ expiredMsg.take 100, f.name)
  | .downloadRaise m =>
    some ("Error syncing " ++ f.name ++ ": " ++ m, "Error: " ++ m.take 100, f.name)
  | .persist dlName pr =>
    match pr with
    | .knowledgeRaise m =>
      some ("Failed to add " ++ dlName ++ ": " ++ m, "Error: " ++ m.take 100, dlName)
    | _ => none

theorem raisedInfo_item (existing : List (String × Option String))
    (outcomes : Nat → ItemOutcome) (now i : Nat) (f : FileDesc) (err logMsg nm : String)
    (hex : existing.lookup f.id = none)
    (hout : raisedInfo f (outcomes i) = some (err, logMsg, nm)) :
    itemErrs existing outcomes i f = [err] ∧
      itemLog existing outcomes now i f = ⟨now, "error", logMsg, some nm⟩ := by
  cases ho : outcomes i with
  | downloadTokenExpired =>
    rw [ho] at hout
    simp only [raisedInfo, Option.some.injEq, Prod.mk.injEq] at hout
    obtain ⟨h1, h2, h3⟩ := hout
    subst h1; subst h2; subst h3
    simp [itemErrs, itemLog, hex, ho]
  | downloadRaise m =>
    rw [ho] at hout
    simp only [raisedInfo, Option.some.injEq, Prod.mk.injEq] at hout
    obtain ⟨h1, h2, h3⟩ := hout
    subst h1; subst h2; subst h3
    simp [itemErrs, itemLog, hex, ho]
  | persist dlName pr =>
    rw [ho] at hout
    cases pr with
    | knowledgeRaise m =>
      simp only [raisedInfo, Option.some.injEq, Prod.mk.injEq] at hout
      obtain ⟨h1, h2, h3⟩ := hout
      subst h1; subst h2; subst h3
      simp [itemErrs, itemLog, hex, ho]
    | ok => simp [raisedInfo] at hout
    | insertNone => simp [raisedInfo] at hout
    | knowledgeNone => simp [raisedInfo] at hout

theorem mem_take_five {α : Type} (pre post : List α) (x : α) (h : pre.length < 5) :
    x ∈ (pre ++ x :: post).take 5 := by
  rw [List.take_append_eq_append_take]
  refine List.mem_append.mpr (Or.inr ?_)
  obtain ⟨k, hk⟩ : ∃ k, 5 - pre.length = k + 1 := ⟨5 - pre.length - 1, by omega⟩
  rw [hk, List.take_succ_cons]
  exact List.mem_cons_self x _

/-- A 150-character failure message, exceeding the truncation window. -/
def longMsg : String := String.mk (List.replicate 150 'a')

/-- C9 counterexample: the error log entry appended for a failing item
does not have a message of at most 100 characters — the message is
"Error: " followed by the failure text truncated to 100 characters
(sharepoint.py line 567), so with a 150-character failure message every
error-level entry of the run's trace carries a 107-character message. -/
theorem per_item_log_truncation_counterexample :
    (∀ e ∈ (runSync "s" wStart [] (.ok [cxFile]) (fun _ => .downloadRaise longMsg) none
        (fun _ => "fid") 7).trace, e.level = "error" → e.message.length = 107) ∧
      (∃ e ∈ (runSync "s" wStart [] (.ok [cxFile]) (fun _ => .downloadRaise longMsg) none
        (fun _ => "fid") 7).trace, e.level = "error") := by
  decide

/-- C9 (amended): a per-item failure never aborts the run.  When the
download (or knowledge attachment) of the item at position |a| raises — raisedInfo
gives the resulting error string, log message and log file name — the
next item is still processed (its progress write occurs), an error log
entry whose message embeds the failure text truncated to 100 characters
behind an "Error: " prefix is appended for the failing item, the run
ends with status error, the stored sync_error joins the first 5 error
strings, and the failing item's error string is among the joined ones
whenever fewer than 5 failures precede it. -/
theorem per_item_failure_contained (syncId : String) (st0 : SyncRecord) (db0 : List FileRec)
    (a b : List FileDesc) (fX : FileDesc) (outcomes : Nat → ItemOutcome)
    (freshId : Nat → String) (now : Nat) (err logMsg nm : String)
    (hst : st0.sync_status ≠ "cancelled")
    (hex : (getExisting syncId db0).lookup fX.id = none)
    (hout : raisedInfo fX (outcomes a.length) = some (err, logMsg, nm))
    (hb : b ≠ []) :
    Event.progressUpdate (a.length + 1)
        ∈ (runSync syncId st0 db0 (.ok (a ++ fX :: b)) outcomes none freshId now).events ∧
      (⟨now, "error", logMsg, some nm⟩ : LogEntry)
        ∈ (runSync syncId st0 db0 (.ok (a ++ fX :: b)) outcomes none freshId now).trace ∧
      (runSync syncId st0 db0 (.ok (a ++ fX :: b)) outcomes none freshId now).record.sync_status
        = "error" ∧
      (runSync syncId st0 db0 (.ok (a ++ fX :: b)) outcomes none freshId now).record.sync_error
        = some (String.intercalate "; "
            ((runErrs (getExisting syncId db0) outcomes 0 (a ++ fX :: b)).take 5)) ∧
      runErrs (getExisting syncId db0) outcomes 0 (a ++ fX :: b)
        = runErrs (getExisting syncId db0) outcomes 0 a
          ++ err :: runErrs (getExisting syncId db0) outcomes (a.length + 1) b ∧
      ((runErrs (getExisting syncId db0) outcomes 0 a).length < 5 →
        err ∈ (runErrs (getExisting syncId db0) outcomes 0 (a ++ fX :: b)).take 5) := by
  have hitem := raisedInfo_item (getExisting syncId db0) outcomes now a.length fX
    err logMsg nm hex hout
  have hsplit : runErrs (getExisting syncId db0) outcomes 0 (a ++ fX :: b)
      = runErrs (getExisting syncId db0) outcomes 0 a
        ++ err :: runErrs (getExisting syncId db0) outcomes (a.length + 1) b := by
    rw [runErrs_append, Nat.zero_add]
    simp only [runErrs, hitem.1, List.singleton_append]
  have hne : (runErrs (getExisting syncId db0) outcomes 0 (a ++ fX :: b)).isEmpty = false := by
    rw [hsplit]
    cases h : runErrs (getExisting syncId db0) outcomes 0 a <;> rfl
  obtain ⟨fY, b', rfl⟩ : ∃ fY b', b = fY :: b' := by
    cases b with
    | nil => exact absurd rfl hb
    | cons x xs => exact ⟨x, xs, rfl⟩
  rw [runSync_ok syncId st0 db0 (a ++ fX :: fY :: b') outcomes freshId now hst]
  refine ⟨?_, ?_, by simp [hne], by simp [hne], hsplit, fun h5 => ?_⟩
  · rw [runEvents_append, Nat.zero_add]
    refine List.mem_append.mpr (Or.inr ?_)
    simp only [runEvents]
    refine List.mem_append.mpr (Or.inr (List.mem_append.mpr (Or.inl ?_)))
    exact itemEvents_mem_progress _ _ _ _
  · refine List.mem_append.mpr (Or.inl (List.mem_append.mpr (Or.inr ?_)))
    rw [runLogs_append, Nat.zero_add]
    refine List.mem_append.mpr (Or.inr ?_)
    simp only [runLogs]
    rw [hitem.2]
    exact List.mem_cons_self _ _
  · rw [hsplit]
    exact mem_take_five _ _ _ h5

/-- Witness for per_item_failure_contained: a two-item list whose first
item's download raises. -/
theorem per_item_failure_contained_witness :
    Event.progressUpdate 1
        ∈ (runSync "s" wStart [] (.ok ([] ++ cxFile :: [wFile]))
            (fun _ => .downloadRaise "boom") none (fun _ => "fid") 7).events ∧
      (runSync "s" wStart [] (.ok ([] ++ cxFile :: [wFile]))
          (fun _ => .downloadRaise "boom") none (fun _ => "fid") 7).record.sync_status
        = "error" := by
  have h := per_item_failure_contained "s" wStart [] [] [wFile] cxFile
    (fun _ => .downloadRaise "boom") (fun _ => "fid") 7
    ("Error syncing " ++ cxFile.name ++ ": " ++ "boom")
    ("Error: " ++ ("boom" : String).take 100) cxFile.name
    (by decide) rfl rfl (by decide)
  exact ⟨by simpa using h.1, h.2.2.1⟩

/-- The file records a fully successful run inserts for fs starting at
index i, in order. -/
def mkRecs (syncId : String) (freshId : Nat → String) : Nat → List FileDesc → List FileRec
  | _, [] => []
  | i, f :: rest => mkFileRec syncId freshId i f :: mkRecs syncId freshId (i + 1) rest

theorem getExistingFrom_append (syncId : String) :
    ∀ (d1 d2 : List FileRec) (acc : List (String × Option String)),
      getExistingFrom syncId acc (d1 ++ d2)
        = getExistingFrom syncId (getExistingFrom syncId acc d1) d2 := by
  intro d1
  induction d1 with
  | nil => intro d2 acc; rfl
  | cons f rest ih =>
    intro d2 acc
    simp only [List.cons_append, getExistingFrom]
    exact ih d2 _

theorem upsert_fresh :
    ∀ (acc : List (String × Option String)) (k : String) (v : Option String),
      (∀ p ∈ acc, p.1 ≠ k) → upsert acc k v = acc ++ [(k, v)] := by
  intro acc
  induction acc with
  | nil => intro k v _; rfl
  | cons p rest ih =>
    intro k v h
    obtain ⟨k', v'⟩ := p
    simp only [upsert]
    rw [if_neg (h (k', v') (List.mem_cons_self _ _)), List.cons_append,
      ih k v (fun q hq => h q (List.mem_cons_of_mem _ hq))]

theorem getExistingFrom_mkRecs (syncId : String) (freshId : Nat → String) :
    ∀ (fs : List FileDesc) (i : Nat) (acc : List (String × Option String)),
      (∀ f ∈ fs, f.id ≠ "") → (fs.map FileDesc.id).Nodup →
      (∀ f ∈ fs, ∀ p ∈ acc, p.1 ≠ f.id) →
      getExistingFrom syncId acc (mkRecs syncId freshId i fs)
        = acc ++ fs.map (fun f => (f.id, f.lastModifiedDateTime)) := by
  intro fs
  induction fs with
  | nil => intro i acc _ _ _; simp [mkRecs, getExistingFrom]
  | cons f rest ih =>
    intro i acc hne hnd hacc
    simp only [mkRecs, getExistingFrom, mkFileRec]
    rw [if_pos ⟨trivial, hne f (List.mem_cons_self _ _)⟩,
      upsert_fresh acc _ _ (fun p hp => hacc f (List.mem_cons_self _ _) p hp)]
    have hacc' : ∀ g ∈ rest, ∀ p ∈ acc ++ [(f.id, f.lastModifiedDateTime)], p.1 ≠ g.id := by
      intro g hg p hp
      rcases List.mem_append.mp hp with hp | hp
      · exact hacc g (List.mem_cons_of_mem _ hg) p hp
      · have hp' : p = (f.id, f.lastModifiedDateTime) := by simpa using hp
        subst hp'
        intro hcontra
        have hmem : g.id ∈ rest.map FileDesc.id := List.mem_map_of_mem _ hg
        rw [← hcontra] at hmem
        exact (List.nodup_cons.mp hnd).1 hmem
    rw [ih (i + 1) _ (fun g hg => hne g (List.mem_cons_of_mem _ hg))
      (List.Nodup.of_cons hnd) hacc']
    simp

theorem lookup_map_lm :
    ∀ (fs : List FileDesc), (fs.map FileDesc.id).Nodup →
      ∀ f ∈ fs, (fs.map (fun g => (g.id, g.lastModifiedDateTime))).lookup f.id
        = some f.lastModifiedDateTime := by
  intro fs
  induction fs with
  | nil => intro _ f hf; simp at hf
  | cons g rest ih =>
    intro hnd f hf
    rcases List.mem_cons.mp hf with hfg | hf'
    · subst hfg
      simp [List.lookup]
    · have hgne : (f.id == g.id) = false := by
        refine beq_eq_false_iff_ne.mpr ?_
        intro hcontra
        have hmem : f.id ∈ rest.map FileDesc.id := List.mem_map_of_mem _ hf'
        rw [hcontra] at hmem
        exact (List.nodup_cons.mp hnd).1 hmem
      simp only [List.map_cons, List.lookup, hgne]
      exact ih (List.Nodup.of_cons hnd) f hf'

theorem runDeltas_all_ok (syncId : String) (freshId : Nat → String)
    (outcomes : Nat → ItemOutcome) :
    ∀ (fs : List FileDesc) (i : Nat),
      (∀ j, j < fs.length → ∃ nm, outcomes (i + j) = .persist nm .ok) →
      runErrs [] outcomes i fs = [] ∧
        runSyncedCount [] outcomes i fs = fs.length ∧
        runSkippedCount [] fs = 0 ∧
        runRecs [] syncId freshId outcomes i fs = mkRecs syncId freshId i fs := by
  intro fs
  induction fs with
  | nil =>
    intro i _
    simp [runErrs, runSyncedCount, runSkippedCount, runRecs, mkRecs]
  | cons f rest ih =>
    intro i h
    obtain ⟨nm, h0⟩ := h 0 (by simp)
    rw [Nat.add_zero] at h0
    have hrest := ih (i + 1) (fun j hj => by
      obtain ⟨nm', hj'⟩ := h (j + 1) (by simp only [List.length_cons]; omega)
      exact ⟨nm', by rwa [show i + (j + 1) = i + 1 + j by omega] at hj'⟩)
    refine ⟨?_, ?_, ?_, ?_⟩
    · simp [runErrs, itemErrs, List.lookup, h0, hrest.1]
    · simp [runSyncedCount, itemSynced, List.lookup, h0, hrest.2.1]
      omega
    · simp [runSkippedCount, itemSkipped, List.lookup, hrest.2.2.1]
    · simp [runRecs, itemRecs, mkRecs, List.lookup, h0, hrest.2.2.2]

theorem runDeltas_all_skip (existing : List (String × Option String)) (syncId : String)
    (freshId : Nat → String) (outcomes : Nat → ItemOutcome) (now : Nat) :
    ∀ (fs : List FileDesc) (i : Nat),
      (∀ f ∈ fs, existing.lookup f.id = some f.lastModifiedDateTime) →
      runErrs existing outcomes i fs = [] ∧
        runSyncedCount existing outcomes i fs = 0 ∧
        runSkippedCount existing fs = fs.length ∧
        runRecs existing syncId freshId outcomes i fs = [] ∧
        runLogs existing outcomes now i fs
          = fs.map (fun f => ⟨now, "skip", "Skipped (unchanged)", some f.name⟩) ∧
        (∀ e ∈ runEvents existing outcomes i fs, ∃ j, e = Event.progressUpdate j) := by
  intro fs
  induction fs with
  | nil =>
    intro i _
    simp [runErrs, runSyncedCount, runSkippedCount, runRecs, runLogs, runEvents]
  | cons f rest ih =>
    intro i h
    have h0 := h f (List.mem_cons_self _ _)
    have hrest := ih (i + 1) (fun g hg => h g (List.mem_cons_of_mem _ hg))
    refine ⟨?_, ?_, ?_, ?_, ?_, ?_⟩
    · simp [runErrs, itemErrs, h0, hrest.1]
    · simp [runSyncedCount, itemSynced, h0, hrest.2.1]
    · simp [runSkippedCount, itemSkipped, h0, hrest.2.2.1]
      omega
    · simp [runRecs, itemRecs, h0, hrest.2.2.2.1]
    · simp [runLogs, itemLog, h0, hrest.2.2.2.2.1]
    · intro e he
      rw [runEvents, List.mem_append] at he
      rcases he with he | he
      · simp [itemEvents, h0] at he
        exact ⟨i, he⟩
      · exact hrest.2.2.2.2.2 e he

/-- C7: running the orchestrator twice against an unchanged remote
folder, where the first run starts with no files yet recorded for this
job, all item ids distinct and nonempty, and every first-run item
downloads and persists successfully: both runs end synced with progress
equal to total equal to the item count; on the second run — whatever the
environment would do on a download — every item is logged skip
(unchanged), only progress writes occur (nothing is downloaded or
inserted), and the file table and file_count are unchanged between
runs. -/
theorem idempotent_second_run (syncId : String) (st0 : SyncRecord) (db0 : List FileRec)
    (files : List FileDesc) (outcomes1 outcomes2 : Nat → ItemOutcome)
    (freshId : Nat → String) (now1 now2 : Nat) (R1 R2 : RunResult)
    (hR1 : R1 = runSync syncId st0 db0 (.ok files) outcomes1 none freshId now1)
    (hR2 : R2 = runSync syncId R1.record R1.db (.ok files) outcomes2 none freshId now2)
    (hst : st0.sync_status ≠ "cancelled")
    (hdb0 : getExisting syncId db0 = [])
    (hids : (files.map FileDesc.id).Nodup)
    (hne : ∀ f ∈ files, f.id ≠ "")
    (hok : ∀ j, j < files.length → ∃ nm, outcomes1 j = .persist nm .ok) :
    R1.record.sync_status = "synced" ∧ R1.record.sync_progress = files.length ∧
      R1.record.sync_total = files.length ∧ R1.record.file_count = files.length ∧
      R2.record.sync_status = "synced" ∧ R2.record.sync_progress = files.length ∧
      R2.record.sync_total = files.length ∧ R2.record.file_count = files.length ∧
      (∀ f ∈ files,
        (⟨now2, "skip", "Skipped (unchanged)", some f.name⟩ : LogEntry) ∈ R2.trace) ∧
      (∀ e ∈ R2.events, ∃ j, e = Event.progressUpdate j) ∧
      R2.db = R1.db := by
  have hd1 := runDeltas_all_ok syncId freshId outcomes1 files 0
    (fun j hj => by simpa using hok j hj)
  have h1 : R1 = _ := hR1.trans (runSync_ok syncId st0 db0 files outcomes1 freshId now1 hst)
  have h1status : R1.record.sync_status = "synced" := by
    rw [h1]
    simp [hdb0, hd1.1]
  have h1db : R1.db = db0 ++ mkRecs syncId freshId 0 files := by
    rw [h1]
    simp [hdb0, hd1.2.2.2]
  have hex2 : getExisting syncId R1.db
      = files.map (fun f => (f.id, f.lastModifiedDateTime)) := by
    rw [h1db, getExisting, getExistingFrom_append,
      show getExistingFrom syncId [] db0 = [] from hdb0,
      getExistingFrom_mkRecs syncId freshId files 0 [] hne hids (fun f _ p hp => by simp at hp)]
    simp
  have hlk : ∀ f ∈ files,
      (getExisting syncId R1.db).lookup f.id = some f.lastModifiedDateTime := by
    rw [hex2]
    exact lookup_map_lm files hids
  have hd2 := runDeltas_all_skip (getExisting syncId R1.db) syncId freshId outcomes2 now2
    files 0 hlk
  have h2 : R2 = _ := hR2.trans (runSync_ok syncId R1.record R1.db files outcomes2 freshId now2
    (by rw [h1status]; intro hcontra; simp at hcontra))
  refine ⟨h1status, by rw [h1], by rw [h1], ?_, ?_, by rw [h2], by rw [h2], ?_, ?_, ?_, ?_⟩
  · rw [h1]
    simp [hdb0, hd1.2.1, hd1.2.2.1]
  · rw [h2]
    simp [hd2.1]
  · rw [h2]
    simp [hd2.1, hd2.2.1, hd2.2.2.1]
  · intro f hf
    rw [h2]
    refine List.mem_append.mpr (Or.inl (List.mem_append.mpr (Or.inr ?_)))
    rw [hd2.2.2.2.2.1]
    exact List.mem_map_of_mem _ hf
  · intro e he
    rw [h2] at he
    exact hd2.2.2.2.2.2 e he
  · rw [h2]
    simp [hd2.2.2.2.1]

/-- A second distinct file for concrete instances. -/
def wFile2 : FileDesc := ⟨"it2", "b.txt", 5, some "m2", "text/plain", "/root"⟩

/-- A concrete fully successful first run over two files. -/
def wRun1 : RunResult :=
  runSync "s" wStart [] (.ok [wFile, wFile2]) (fun _ => .persist "x" .ok) none
    (fun _ => "fid") 5

/-- The same folder synced again against wRun1's outcome; the second
run's download oracle would always fail — it is never consulted. -/
def wRun2 : RunResult :=
  runSync "s" wRun1.record wRun1.db (.ok [wFile, wFile2]) (fun _ => .downloadRaise "never")
    none (fun _ => "fid") 6

/-- Witness for idempotent_second_run at a two-file folder. -/
theorem idempotent_second_run_witness :
    wRun2.record.sync_status = "synced" ∧ wRun2.record.file_count = 2 ∧
      wRun2.db = wRun1.db := by
  have h := idempotent_second_run "s" wStart [] [wFile, wFile2]
    (fun _ => .persist "x" .ok) (fun _ => .downloadRaise "never") (fun _ => "fid") 5 6
    wRun1 wRun2 rfl rfl (by decide) rfl (by decide)
    (by intro f hf; fin_cases hf <;> decide)
    (fun j _ => ⟨"x", rfl⟩)
  refine ⟨h.2.2.2.2.1, ?_, h.2.2.2.2.2.2.2.2.2.2⟩
  have := h.2.2.2.2.2.2.2.1
  simpa using this

end SharepointSync
